import Mathlib

/-!
Verification of the `autoreload` package (src/autoreload.go): a shallow
embedding of the reload-supervision state machine, its construction options,
its startup sequence and its retry loop, with theorems settling the frozen
claims about it.

Modelling conventions:
* The observable behaviour of a run is a `List Obs`: logger calls
  (`Logger.Info` / `Logger.Error`), the pre-reload hook invocation
  (`ar.onReload()`), and each `syscall.Exec` attempt with its full argument
  vector and environment.
* `os.Exit(n)` and a successful `syscall.Exec` never return; they are the
  terminal outcomes `CycleEnd.exited n` and `CycleEnd.replaced`.
* Fallible external operations (`exec.LookPath`, `fsnotify.NewWatcher`,
  `watcher.Add`, `syscall.Exec`) are parameters of the embedding: their
  results are supplied as values (`Except`/`Option`/`ExecOutcome` scripts).
* The goroutine's `select` multiplexes the event channel, the error channel
  and `ctx.Done()`; it is embedded as a function over the list of inputs in
  arrival order (`LoopInput`), the arrival-order processing guarantee of the
  channels.
* Time is a `Nat` of milliseconds where it matters (`sleep`).
-/

namespace Autoreload

/-- Observable actions of the supervisor: informational log, error log with
its cause, the pre-reload hook call, and a `syscall.Exec` attempt carrying
the executable path, argument vector and environment it was given. -/
inductive Obs where
  | infoLog (msg : String)
  | errorLog (msg : String) (cause : Option String)
  | hookCall
  | execCall (argv0 : String) (argv : List String) (envv : List String)
  deriving Repr, DecidableEq

/-- Terminal outcome of a reload cycle: the process image was replaced by a
successful `syscall.Exec` (which never returns), or the process exited with
a code via `os.Exit`. -/
inductive CycleEnd where
  | replaced
  | exited (code : Nat)
  deriving Repr, DecidableEq

/-- Result of one underlying `syscall.Exec` call, supplied by the
environment: success (the process image is replaced), the `ETXTBSY` errno,
or any other error with its message. -/
inductive ExecOutcome where
  | success
  | etxtbsy
  | otherError (e : String)
  deriving Repr, DecidableEq

/-- Embedding of `fatal` (src/autoreload.go:381): one `logger.Error(msg, err)`
call followed by `os.Exit(1)`; the trace of the report and the exit code. -/
def fatal (msg : String) (err : Option String) : List Obs × Nat :=
  ([Obs.errorLog msg err], 1)

/-- Embedding of `must` (src/autoreload.go:342): a nil error is a no-op,
a non-nil error runs `fatal` (reported once, process exits — the `.error`
branch, which the caller never returns from). -/
def must (err : Option String) (msg : String) : Except (List Obs × Nat) Unit :=
  match err with
  | some e => Except.error (fatal msg (some e))
  | none => Except.ok ()

/-- Embedding of `mustLookPath` (src/autoreload.go:348): `exec.LookPath` is
supplied as a function; on error, `fatal` with the "Cannot find executable"
message; on success the resolved path. -/
def mustLookPath (lookPath : String → Except String String) (name : String) :
    Except (List Obs × Nat) String :=
  match lookPath name with
  | Except.error e => Except.error (fatal ("Cannot find executable: " ++ name) (some e))
  | Except.ok path => Except.ok path

/-- Embedding of `tryExec` (src/autoreload.go:369): performs the
`syscall.Exec(argv0, argv, envv)` attempt (recorded as `Obs.execCall`).
`none` means the call returned normally to its caller (only the `ETXTBSY`
errno case); `some end` means the call never returns: `.replaced` on a
successful exec, or `fatal` (one error report, `os.Exit(1)`) on any other
error. -/
def tryExec (argv0 : String) (argv envv : List String) (outcome : ExecOutcome) :
    List Obs × Option CycleEnd :=
  match outcome with
  | ExecOutcome.etxtbsy => ([Obs.execCall argv0 argv envv], none)
  | ExecOutcome.success => ([Obs.execCall argv0 argv envv], some CycleEnd.replaced)
  | ExecOutcome.otherError e =>
    let f := fatal ("syscall.Exec: " ++ argv0) (some e)
    (Obs.execCall argv0 argv envv :: f.1, some (CycleEnd.exited f.2))

/-- Embedding of the retry loop `for i := 0; i < ar.maxAttempts; i++` inside
`Start`'s goroutine (src/autoreload.go:320-327). Arguments: the exec path,
argv and env passed to every `tryExec`, the script of exec outcomes per
attempt index, the current index `i` and the remaining iteration count.
Each iteration sleeps 250ms swallowing pending events (modelled by `sleep`,
with no observable effect on this trace), invokes the hook only when
`i == 0`, then calls `tryExec`; when iterations are exhausted,
`fatal("Failed to reload process", errors.New("max attempts reached"))`. -/
def attemptLoop (argv0 : String) (argv envv : List String)
    (outcomes : Nat → ExecOutcome) : Nat → Nat → List Obs × CycleEnd
  | _, 0 =>
    let f := fatal "Failed to reload process" (some "max attempts reached")
    (f.1, CycleEnd.exited f.2)
  | i, r + 1 =>
    let hookObs : List Obs := if i = 0 then [Obs.hookCall] else []
    match tryExec argv0 argv envv (outcomes i) with
    | (t, some z) => (hookObs ++ t, z)
    | (t, none) =>
      let rest := attemptLoop argv0 argv envv outcomes (i + 1) r
      (hookObs ++ t ++ rest.1, rest.2)

/-- Inputs observed by the goroutine's `select` (src/autoreload.go:317-332),
in arrival order: a change notification on `watcher.Events`, a value on
`watcher.Errors` (`none` embeds a nil error, e.g. from a closed channel),
or the firing of `ctx.Done()`. -/
inductive LoopInput where
  | event
  | watchError (e : Option String)
  | cancelled
  deriving Repr, DecidableEq

/-- Terminal status of the watch loop: still blocked in `select` (input list
exhausted), returned after observing cancellation, process image replaced,
or process exited with a code. -/
inductive LoopEnd where
  | waiting
  | returned
  | replaced
  | exited (code : Nat)
  deriving Repr, DecidableEq

/-- Conversion of a reload cycle's terminal outcome into the loop's. -/
def LoopEnd.ofCycle : CycleEnd → LoopEnd
  | CycleEnd.replaced => LoopEnd.replaced
  | CycleEnd.exited n => LoopEnd.exited n

/-- Embedding of the goroutine launched by `Start` (src/autoreload.go:315-334),
processing its `select` inputs in arrival order. A change notification logs
"Executable changed; reloading process" and runs the retry loop (one reload
cycle), whose outcome always ends the process, so later inputs are moot. A
watcher error goes through `must`: nil continues the loop, non-nil is fatal.
`ctx.Done()` makes the goroutine return. -/
def runLoop (argv0 : String) (argv envv : List String) (maxAttempts : Int)
    (outcomes : Nat → ExecOutcome) : List LoopInput → List Obs × LoopEnd
  | [] => ([], LoopEnd.waiting)
  | LoopInput.event :: _ =>
    let c := attemptLoop argv0 argv envv outcomes 0 maxAttempts.toNat
    (Obs.infoLog "Executable changed; reloading process" :: c.1, LoopEnd.ofCycle c.2)
  | LoopInput.watchError e :: rest =>
    match must e "Error watching file" with
    | Except.error f => (f.1, LoopEnd.exited f.2)
    | Except.ok _ => runLoop argv0 argv envv maxAttempts outcomes rest
  | LoopInput.cancelled :: _ => ([], LoopEnd.returned)

/-- Embedding of the `select` loop inside `sleep` (src/autoreload.go:358-367)
with the timer deadline already fixed by `time.After(d)`. The events are
their arrival times: an event arriving before the deadline is received and
swallowed and the loop continues; otherwise the timer case fires. Returns
the swallowed events and the return time. -/
def sleepSelect (deadline : Nat) : List Nat → List Nat × Nat
  | [] => ([], deadline)
  | t :: ts =>
    if t < deadline then
      let r := sleepSelect deadline ts
      (t :: r.1, r.2)
    else ([], deadline)

/-- Embedding of `sleep(d, events)` (src/autoreload.go:358): `time.After(d)`
arms a timer at `start + d` and the select loop runs against it. -/
def sleep (start d : Nat) (events : List Nat) : List Nat × Nat :=
  sleepSelect (start + d) events

/-- Modelled from the spec: the restarting ("pure debounce") quiet window the
spec describes for the Debouncing state — each notification arriving before
the window elapses restarts the window from its own arrival time, so the
window only ends after a full `d` with no notification. This definition
exists only to compare the spec's description with the source's `sleep`. -/
def debounceRestart (start d : Nat) : List Nat → Nat
  | [] => start + d
  | t :: ts => if t < start + d then debounceRestart t d ts else start + d

/-- Embedding of the `Logger` values relevant to configuration: the default
logger installed by `New`, the `noopLogger` substituted for nil, or any
caller-supplied implementation (identified opaquely). -/
inductive Logger where
  | default
  | noop
  | custom (id : Nat)
  deriving Repr, DecidableEq

/-- Embedding of the `AutoReloader` configuration struct
(src/autoreload.go:226-234). The pre-reload hook function value is embedded
by the observable actions it performs when invoked (the nil-coerced no-op
`func() {}` performs none); the `ctx`/`cancel` pair is modelled separately
by `CancelToken` since it carries no configuration. -/
structure AutoReloader where
  cmd : String
  logger : Logger
  maxAttempts : Int
  onReload : List Nat
  deriving Repr, DecidableEq

/-- Embedding of `defaultMaxAttempts` (src/autoreload.go:196). -/
def defaultMaxAttempts : Int := 10

/-- Configuration record `New` starts from (src/autoreload.go:241-247). -/
def defaultAutoReloader : AutoReloader :=
  { cmd := "", logger := Logger.default, maxAttempts := defaultMaxAttempts, onReload := [] }

/-- Embedding of `New` (src/autoreload.go:239): applies the options in order
to the default record. A total pure function: construction performs no I/O
and cannot fail. -/
def New (opts : List (AutoReloader → AutoReloader)) : AutoReloader :=
  opts.foldl (fun ar opt => opt ar) defaultAutoReloader

/-- Embedding of `WithCommand` (src/autoreload.go:256). -/
def WithCommand (cmd : String) : AutoReloader → AutoReloader :=
  fun ar => { ar with cmd := cmd }

/-- Embedding of `WithLogger` (src/autoreload.go:265): a nil logger
(`none`) is replaced by the no-op logger before the option closure is
built. -/
def WithLogger (logger : Option Logger) : AutoReloader → AutoReloader :=
  let l := match logger with
    | none => Logger.noop
    | some l => l
  fun ar => { ar with logger := l }

/-- Embedding of `WithMaxAttempts` (src/autoreload.go:277): a value less
than 1 is replaced by 1 before the option closure is built. -/
def WithMaxAttempts (maxAttempts : Int) : AutoReloader → AutoReloader :=
  let m := if maxAttempts < 1 then 1 else maxAttempts
  fun ar => { ar with maxAttempts := m }

/-- Embedding of `WithOnReload` (src/autoreload.go:289): a nil callback
(`none`) is replaced by the no-op `func() {}` (which performs no actions)
before the option closure is built. -/
def WithOnReload (onReload : Option (List Nat)) : AutoReloader → AutoReloader :=
  let h := match onReload with
    | none => []
    | some f => f
  fun ar => { ar with onReload := h }

/-- Results of the fallible startup operations `Start` performs:
`exec.LookPath`, `fsnotify.NewWatcher` (its error, `none` = success) and
`watcher.Add` (its error per path). -/
structure StartEnv where
  lookPath : String → Except String String
  newWatcher : Option String
  addWatch : String → Option String

/-- Outcome of the synchronous part of `Start`: the goroutine was launched
with the resolved watch and exec paths and `Start` returned to its caller
(it returns no error value — this constructor carries none), or the process
exited via `fatal`. -/
inductive StartEnd where
  | started (watchPath execPath : String)
  | exited (code : Nat)
  deriving Repr, DecidableEq

/-- Whether `Start` reached the point of launching the goroutine. -/
def StartEnd.isStarted : StartEnd → Bool
  | StartEnd.started _ _ => true
  | StartEnd.exited _ => false

/-- Embedding of the synchronous part of `Start` (src/autoreload.go:302-313):
default the command to `os.Args[0]`, resolve both paths via `mustLookPath`,
create the watcher and add the watch path via `must`; any failure is fatal
(the `Except.error` branch carries the single report and exit code) and the
success path launches the goroutine (`runLoop`) and returns immediately. -/
def Start (env : StartEnv) (ar : AutoReloader) (arg0 : String) : List Obs × StartEnd :=
  let c := if ar.cmd = "" then arg0 else ar.cmd
  match mustLookPath env.lookPath c with
  | Except.error f => (f.1, StartEnd.exited f.2)
  | Except.ok watchPath =>
    match mustLookPath env.lookPath arg0 with
    | Except.error f => (f.1, StartEnd.exited f.2)
    | Except.ok execPath =>
      match must env.newWatcher "Failed to create file watcher" with
      | Except.error f => (f.1, StartEnd.exited f.2)
      | Except.ok _ =>
        match must (env.addWatch watchPath) "Failed to watch file" with
        | Except.error f => (f.1, StartEnd.exited f.2)
        | Except.ok _ => ([], StartEnd.started watchPath execPath)

/-- Embedding of the context/cancel pair created by `New`
(src/autoreload.go:240): the only shared mutable state, a concurrently and
idempotently signallable flag. -/
structure CancelToken where
  cancelled : Bool
  deriving Repr, DecidableEq

/-- Embedding of `Stop` (src/autoreload.go:338): `ar.cancel()`, signalling
the token regardless of its current state or of whether the loop still
runs. -/
def Stop (_t : CancelToken) : CancelToken :=
  { cancelled := true }

/-- Inputs the watch loop observes under a given token state: a cancelled
token makes `ctx.Done()` ready before anything else. -/
def tokenInputs (t : CancelToken) (ins : List LoopInput) : List LoopInput :=
  if t.cancelled then LoopInput.cancelled :: ins else ins

/-- Whether an observation is a pre-reload hook invocation. -/
def isHook : Obs → Bool
  | Obs.hookCall => true
  | _ => false

/-- Whether an observation is a `syscall.Exec` attempt. -/
def isExec : Obs → Bool
  | Obs.execCall _ _ _ => true
  | _ => false

/-- Whether an observation is an error report. -/
def isErr : Obs → Bool
  | Obs.errorLog _ _ => true
  | _ => false

/-- Number of pre-reload hook invocations in a trace. -/
def hookCount (t : List Obs) : Nat := (t.filter isHook).length

/-- Number of `syscall.Exec` attempts in a trace. -/
def execCount (t : List Obs) : Nat := (t.filter isExec).length

/-- Number of error reports in a trace. -/
def errCount (t : List Obs) : Nat := (t.filter isErr).length

end Autoreload

namespace Autoreload

/-! ## Helper lemmas -/

/-- Closed form of `sleepSelect`: it swallows exactly the events arriving
before the deadline and returns at the deadline. -/
theorem sleepSelect_eq (deadline : Nat) :
    ∀ events : List Nat,
      sleepSelect deadline events
        = (events.takeWhile (fun t => t < deadline), deadline) := by
  intro events
  induction events with
  | nil => rfl
  | cons t ts ih =>
    by_cases h : t < deadline
    · simp [sleepSelect, h, List.takeWhile_cons, ih]
    · simp [sleepSelect, h, List.takeWhile_cons]

/-- The trace of one `tryExec` call contains no hook invocation. -/
theorem hookCount_tryExec (argv0 : String) (argv envv : List String)
    (oc : ExecOutcome) : hookCount (tryExec argv0 argv envv oc).1 = 0 := by
  cases oc <;> simp [tryExec, fatal, hookCount, isHook]

/-- From any attempt index other than 0 on, the retry loop never invokes
the hook. -/
theorem hookCount_attemptLoop (argv0 : String) (argv envv : List String)
    (outcomes : Nat → ExecOutcome) :
    ∀ r i, i ≠ 0 → hookCount (attemptLoop argv0 argv envv outcomes i r).1 = 0 := by
  intro r
  induction r with
  | zero => intro i _; simp [attemptLoop, fatal, hookCount, isHook]
  | succ r ih =>
    intro i hi
    cases hoc : outcomes i with
    | etxtbsy =>
      simp only [attemptLoop, hoc, tryExec, hi, if_neg hi]
      simp [hookCount, isHook, List.filter_append] at *
      exact ih (i + 1) (Nat.succ_ne_zero i)
    | success => simp [attemptLoop, hoc, tryExec, hi, hookCount, isHook]
    | otherError e => simp [attemptLoop, hoc, tryExec, fatal, hi, hookCount, isHook]

/-- Closed form of the retry loop when every attempt hits `ETXTBSY`, from
any attempt index other than 0: one exec per remaining iteration, then the
"max attempts reached" report and exit 1. -/
theorem attemptLoop_busy (argv0 : String) (argv envv : List String) :
    ∀ r i, i ≠ 0 →
      attemptLoop argv0 argv envv (fun _ => ExecOutcome.etxtbsy) i r
        = (List.replicate r (Obs.execCall argv0 argv envv)
            ++ [Obs.errorLog "Failed to reload process" (some "max attempts reached")],
          CycleEnd.exited 1) := by
  intro r
  induction r with
  | zero => intro i _; simp [attemptLoop, fatal]
  | succ r ih =>
    intro i hi
    simp only [attemptLoop, tryExec, if_neg hi, ih (i + 1) (Nat.succ_ne_zero i),
      List.replicate_succ]
    simp

end Autoreload

namespace Autoreload

/-! ## Claim theorems -/

/-- C3 counterexample: the quiet window of the source's `sleep` does NOT
restart when a further change notification arrives before it elapses. With
the window opened at time 0 and one further notification at time 100
(less than 250ms later), `sleep` still returns at time 250 — 150ms after
the last notification — whereas the restarting debounce the claim describes
would only fire at time 350, a full 250ms after the last notification. -/
theorem sleep_window_no_restart :
    (sleep 0 250 [100]).2 = 250
    ∧ debounceRestart 0 250 [100] = 350
    ∧ (sleep 0 250 [100]).2 ≠ debounceRestart 0 250 [100] := by
  decide

/-- C3 (amended): while in the Debouncing state, further change
notifications arriving before the 250ms window elapses are received and
swallowed (so a burst still collapses into a single reload cycle), but they
do not restart the window: `sleep` returns exactly `d` after the window was
opened, regardless of the notifications that arrived during it. -/
theorem sleep_fixed_window (start d : Nat) (events : List Nat) :
    (sleep start d events).2 = start + d
    ∧ (sleep start d events).1 = events.takeWhile (fun t => t < start + d) := by
  simp [sleep, sleepSelect_eq]

/-- C4: classification of one Process Replacer invocation. An `ETXTBSY`
failure returns normally to the caller (`none`) with no error report; a
successful exec never returns (`some .replaced`); any other error is
reported exactly once and the process exits immediately with code 1
(`some (.exited 1)`), also never returning. -/
theorem tryExec_classification (argv0 : String) (argv envv : List String) (e : String) :
    ((tryExec argv0 argv envv ExecOutcome.etxtbsy).2 = none
      ∧ errCount (tryExec argv0 argv envv ExecOutcome.etxtbsy).1 = 0)
    ∧ (tryExec argv0 argv envv ExecOutcome.success).2 = some CycleEnd.replaced
    ∧ ((tryExec argv0 argv envv (ExecOutcome.otherError e)).2 = some (CycleEnd.exited 1)
      ∧ errCount (tryExec argv0 argv envv (ExecOutcome.otherError e)).1 = 1) := by
  refine ⟨⟨rfl, ?_⟩, rfl, ⟨rfl, ?_⟩⟩ <;> simp [tryExec, fatal, errCount, isErr]

/-- C9: `Stop` is idempotent. Signalling the cancellation token a second
time (in any state, including after the watch loop already exited — the
token is the only state `Stop` touches) leaves the token identical, and the
watch loop run against the inputs observable under the doubly-stopped token
behaves identically to the singly-stopped one. -/
theorem stop_idempotent (t : CancelToken) (argv0 : String) (argv envv : List String)
    (maxAttempts : Int) (outcomes : Nat → ExecOutcome) (ins : List LoopInput) :
    Stop (Stop t) = Stop t
    ∧ runLoop argv0 argv envv maxAttempts outcomes (tokenInputs (Stop (Stop t)) ins)
      = runLoop argv0 argv envv maxAttempts outcomes (tokenInputs (Stop t) ins) :=
  ⟨rfl, rfl⟩

/-- C10: a nil value received on the watcher's error channel is not fatal:
the loop neither reports nor exits and simply continues waiting on the
remaining inputs. Only a non-nil error is fatal, with a single report and
exit code 1. -/
theorem watch_error_nil_continues (argv0 : String) (argv envv : List String)
    (maxAttempts : Int) (outcomes : Nat → ExecOutcome) (rest : List LoopInput)
    (e : String) :
    runLoop argv0 argv envv maxAttempts outcomes (LoopInput.watchError none :: rest)
      = runLoop argv0 argv envv maxAttempts outcomes rest
    ∧ runLoop argv0 argv envv maxAttempts outcomes (LoopInput.watchError (some e) :: rest)
      = ([Obs.errorLog "Error watching file" (some e)], LoopEnd.exited 1) := by
  constructor <;> simp [runLoop, must, fatal]

end Autoreload

namespace Autoreload

/-- C1: with `maxAttempts = k` (k ≥ 1) and a Process Replacer that always
hits `ETXTBSY`, the reload cycle triggered by a change notification makes
exactly k exec attempts — the full trace is the informational "reloading"
log, the single hook call, exactly k `execCall`s and the final fatal
"max attempts reached" report — then the process exits with code 1; in
particular no (k+1)th attempt is ever made (`execCount` of the trace is
exactly k). -/
theorem busy_replacer_exhausts_attempts (k : Nat) (hk : 1 ≤ k) (argv0 : String)
    (argv envv : List String) (rest : List LoopInput) :
    runLoop argv0 argv envv (k : Int) (fun _ => ExecOutcome.etxtbsy)
        (LoopInput.event :: rest)
      = (Obs.infoLog "Executable changed; reloading process" :: Obs.hookCall ::
          (List.replicate k (Obs.execCall argv0 argv envv)
            ++ [Obs.errorLog "Failed to reload process" (some "max attempts reached")]),
        LoopEnd.exited 1)
    ∧ execCount (runLoop argv0 argv envv (k : Int) (fun _ => ExecOutcome.etxtbsy)
        (LoopInput.event :: rest)).1 = k := by
  obtain ⟨m, rfl⟩ : ∃ m, k = m + 1 := ⟨k - 1, by omega⟩
  have hmain :
      runLoop argv0 argv envv ((m + 1 : Nat) : Int) (fun _ => ExecOutcome.etxtbsy)
          (LoopInput.event :: rest)
        = (Obs.infoLog "Executable changed; reloading process" :: Obs.hookCall ::
            (List.replicate (m + 1) (Obs.execCall argv0 argv envv)
              ++ [Obs.errorLog "Failed to reload process" (some "max attempts reached")]),
          LoopEnd.exited 1) := by
    simp only [runLoop, Int.toNat_natCast, attemptLoop, tryExec,
      attemptLoop_busy argv0 argv envv m 1 (Nat.succ_ne_zero 0),
      List.replicate_succ, LoopEnd.ofCycle]
    simp
  refine ⟨hmain, ?_⟩
  rw [hmain]
  simp [execCount, List.filter_cons, List.filter_append, isExec]

/-- C1 witness: at `maxAttempts = 2`, an always-busy replacer yields exactly
the two-attempt trace ending in the "max attempts reached" report and
exit 1. -/
theorem busy_replacer_exhausts_attempts_witness :
    runLoop "p" ["p", "-v"] ["E=1"] ((2 : Nat) : Int) (fun _ => ExecOutcome.etxtbsy)
        (LoopInput.event :: [])
      = (Obs.infoLog "Executable changed; reloading process" :: Obs.hookCall ::
          (List.replicate 2 (Obs.execCall "p" ["p", "-v"] ["E=1"])
            ++ [Obs.errorLog "Failed to reload process" (some "max attempts reached")]),
        LoopEnd.exited 1)
    ∧ execCount (runLoop "p" ["p", "-v"] ["E=1"] ((2 : Nat) : Int)
        (fun _ => ExecOutcome.etxtbsy) (LoopInput.event :: [])).1 = 2 :=
  busy_replacer_exhausts_attempts 2 (by decide) "p" ["p", "-v"] ["E=1"] []

end Autoreload

namespace Autoreload

/-- A prefix kept by `takeWhile` has no more hook invocations than the whole
trace. -/
theorem hookCount_takeWhile_le (p : Obs → Bool) (l : List Obs) :
    hookCount (l.takeWhile p) ≤ hookCount l := by
  induction l with
  | nil => simp
  | cons a l ih =>
    by_cases hp : p a
    · by_cases ha : isHook a
      <;> simpa [List.takeWhile_cons, hp, hookCount, List.filter_cons, ha] using ih
    · simp [List.takeWhile_cons, hp, hookCount]

/-- Shape of a reload cycle: with at least one attempt, the retry loop's
trace starts with the single hook invocation and the remainder of the trace
contains no further hook invocation, whatever the replacer outcomes are. -/
theorem attemptLoop_zero_shape (argv0 : String) (argv envv : List String)
    (outcomes : Nat → ExecOutcome) (m : Nat) :
    ∃ tail z, attemptLoop argv0 argv envv outcomes 0 (m + 1) = (Obs.hookCall :: tail, z)
      ∧ hookCount tail = 0 := by
  cases hoc : outcomes 0 with
  | success =>
    exact ⟨[Obs.execCall argv0 argv envv], CycleEnd.replaced,
      by simp [attemptLoop, hoc, tryExec], by simp [hookCount, isHook]⟩
  | etxtbsy =>
    refine ⟨Obs.execCall argv0 argv envv :: (attemptLoop argv0 argv envv outcomes 1 m).1,
      (attemptLoop argv0 argv envv outcomes 1 m).2, ?_, ?_⟩
    · simp [attemptLoop, hoc, tryExec]
    · simpa [hookCount, isHook, List.filter_cons] using
        hookCount_attemptLoop argv0 argv envv outcomes m 1 one_ne_zero
  | otherError e =>
    exact ⟨[Obs.execCall argv0 argv envv, Obs.errorLog ("syscall.Exec: " ++ argv0) (some e)],
      CycleEnd.exited 1,
      by simp [attemptLoop, hoc, tryExec, fatal], by simp [hookCount, isHook]⟩

/-- C2: in every reload cycle with `maxAttempts = k ≥ 1`, whatever the
replacer outcomes (so however many attempts, 1 up to k, the cycle makes),
the pre-reload hook is invoked exactly once in the whole cycle trace, and
that one invocation already occurs in the prefix of the trace preceding the
first Process Replacer attempt (the trace up to the first `execCall`
contains exactly one `hookCall`); it is never re-invoked on retries. -/
theorem hook_invoked_once (k : Nat) (hk : 1 ≤ k) (argv0 : String)
    (argv envv : List String) (outcomes : Nat → ExecOutcome) (rest : List LoopInput) :
    hookCount (runLoop argv0 argv envv (k : Int) outcomes (LoopInput.event :: rest)).1 = 1
    ∧ hookCount ((runLoop argv0 argv envv (k : Int) outcomes
        (LoopInput.event :: rest)).1.takeWhile (fun o => !isExec o)) = 1 := by
  obtain ⟨m, rfl⟩ : ∃ m, k = m + 1 := ⟨k - 1, by omega⟩
  obtain ⟨tail, z, heq, htail⟩ := attemptLoop_zero_shape argv0 argv envv outcomes m
  have hrun :
      runLoop argv0 argv envv ((m + 1 : Nat) : Int) outcomes (LoopInput.event :: rest)
        = (Obs.infoLog "Executable changed; reloading process" :: Obs.hookCall :: tail,
          LoopEnd.ofCycle z) := by
    simp only [runLoop, Int.toNat_natCast, heq]
  rw [hrun]
  constructor
  · simpa [hookCount, isHook, List.filter_cons] using htail
  · have hle := hookCount_takeWhile_le (fun o => !isExec o) tail
    rw [htail] at hle
    simp only [List.takeWhile_cons, isExec, Bool.not_false, if_pos]
    simpa [hookCount, isHook, List.filter_cons] using Nat.le_zero.mp hle

/-- C2 witness: at `maxAttempts = 3` with a replacer that is busy twice and
then succeeds, the cycle's trace contains exactly one hook invocation, and
it lies before the first exec attempt. -/
theorem hook_invoked_once_witness :
    hookCount (runLoop "p" ["p"] ["E=1"] ((3 : Nat) : Int)
        (fun i => if i < 2 then ExecOutcome.etxtbsy else ExecOutcome.success)
        (LoopInput.event :: [])).1 = 1
    ∧ hookCount ((runLoop "p" ["p"] ["E=1"] ((3 : Nat) : Int)
        (fun i => if i < 2 then ExecOutcome.etxtbsy else ExecOutcome.success)
        (LoopInput.event :: [])).1.takeWhile (fun o => !isExec o)) = 1 :=
  hook_invoked_once 3 (by decide) "p" ["p"] ["E=1"]
    (fun i => if i < 2 then ExecOutcome.etxtbsy else ExecOutcome.success) []

end Autoreload

namespace Autoreload

/-- C5: whenever the synchronous part of `Start` does not reach the point of
launching the watch goroutine — i.e. resolving the watched path or the
currently running executable's own path failed, or creating the watcher or
adding the watch path failed — exactly one error report is made and the
process exits immediately with code 1. `Start` never hands an error value
back to its caller: the `StartEnd.started` outcome carries no error. -/
theorem startup_failure_single_report (env : StartEnv) (ar : AutoReloader)
    (arg0 : String)
    (h : StartEnd.isStarted (Start env ar arg0).2 = false) :
    errCount (Start env ar arg0).1 = 1 ∧ (Start env ar arg0).2 = StartEnd.exited 1 := by
  cases hl : env.lookPath (if ar.cmd = "" then arg0 else ar.cmd) with
  | error e =>
    constructor <;> simp [Start, mustLookPath, hl, fatal, errCount, isErr]
  | ok watchPath =>
    cases hl2 : env.lookPath arg0 with
    | error e =>
      constructor <;> simp [Start, mustLookPath, hl, hl2, fatal, errCount, isErr]
    | ok execPath =>
      cases hw : env.newWatcher with
      | some e =>
        constructor <;>
          simp [Start, mustLookPath, must, hl, hl2, hw, fatal, errCount, isErr]
      | none =>
        cases ha : env.addWatch watchPath with
        | some e =>
          constructor <;>
            simp [Start, mustLookPath, must, hl, hl2, hw, ha, fatal, errCount, isErr]
        | none =>
          exfalso
          simp [Start, mustLookPath, must, hl, hl2, hw, ha, StartEnd.isStarted] at h

/-- C5 witness: with an executable lookup that always fails, `Start` from
the default configuration makes exactly one error report and exits with
code 1. -/
theorem startup_failure_single_report_witness :
    errCount (Start
        { lookPath := fun _ => Except.error "executable file not found",
          newWatcher := none, addWatch := fun _ => none }
        defaultAutoReloader "self").1 = 1
    ∧ (Start
        { lookPath := fun _ => Except.error "executable file not found",
          newWatcher := none, addWatch := fun _ => none }
        defaultAutoReloader "self").2 = StartEnd.exited 1 :=
  startup_failure_single_report
    { lookPath := fun _ => Except.error "executable file not found",
      newWatcher := none, addWatch := fun _ => none }
    defaultAutoReloader "self" (by decide)

/-- C6: construction normalizes invalid inputs instead of rejecting them.
The option built from a `maxAttempts` below 1 is literally the same
function as the option built from 1 (so any supervisor constructed with it
behaves identically), the option built from a nil reload callback equals
the one built from the no-op callback, and the option built from a nil
logger equals the one built from the no-op logger; consequently `New` on
identical option lists yields identical supervisors. Construction itself
(`New`, a total pure fold) performs no I/O and cannot fail. -/
theorem construction_normalizes (n : Int) (hn : n < 1) :
    WithMaxAttempts n = WithMaxAttempts 1
    ∧ WithOnReload none = WithOnReload (some [])
    ∧ WithLogger none = WithLogger (some Logger.noop)
    ∧ ∀ opts, New (WithMaxAttempts n :: opts) = New (WithMaxAttempts 1 :: opts) := by
  have h1 : WithMaxAttempts n = WithMaxAttempts 1 := by
    funext ar
    simp [WithMaxAttempts, hn]
  exact ⟨h1, rfl, rfl, fun opts => by rw [h1]⟩

/-- C6 witness: the option built from `maxAttempts = 0` is the option built
from 1. -/
theorem construction_normalizes_witness :
    WithMaxAttempts 0 = WithMaxAttempts 1 :=
  (construction_normalizes 0 (by decide)).1

/-- Every exec attempt the retry loop makes carries exactly the argv0, argv
and envv the loop was given, whatever the attempt index or outcome. -/
theorem attemptLoop_exec_args (argv0 : String) (argv envv : List String)
    (outcomes : Nat → ExecOutcome) :
    ∀ r i o, o ∈ (attemptLoop argv0 argv envv outcomes i r).1 → isExec o = true →
      o = Obs.execCall argv0 argv envv := by
  intro r
  induction r with
  | zero =>
    intro i o ho hx
    simp [attemptLoop, fatal] at ho
    subst ho
    simp [isExec] at hx
  | succ r ih =>
    intro i o ho hx
    cases hoc : outcomes i with
    | success =>
      simp [attemptLoop, hoc, tryExec] at ho
      rcases ho with ⟨_, h⟩ | h
      · subst h; simp [isExec] at hx
      · exact h
    | etxtbsy =>
      simp [attemptLoop, hoc, tryExec] at ho
      rcases ho with ⟨_, h⟩ | h | h
      · subst h; simp [isExec] at hx
      · exact h
      · exact ih (i + 1) o h hx
    | otherError e =>
      simp [attemptLoop, hoc, tryExec, fatal] at ho
      rcases ho with ⟨_, h⟩ | h | h
      · subst h; simp [isExec] at hx
      · exact h
      · subst h; simp [isExec] at hx

/-- C7: every Process Replacer attempt in any run of the watch loop is an
exec of the resolved executable path with exactly the argument vector and
environment of the currently running process (the `os.Args` and
`os.Environ()` the loop passes), for every attempt of every cycle. -/
theorem exec_receives_current_args (argv0 : String) (argv envv : List String)
    (maxAttempts : Int) (outcomes : Nat → ExecOutcome) (ins : List LoopInput) (o : Obs)
    (ho : o ∈ (runLoop argv0 argv envv maxAttempts outcomes ins).1)
    (hx : isExec o = true) :
    o = Obs.execCall argv0 argv envv := by
  revert ho
  induction ins with
  | nil =>
    intro ho
    simp [runLoop] at ho
  | cons input rest ih =>
    intro ho
    cases input with
    | event =>
      simp only [runLoop, List.mem_cons] at ho
      rcases ho with h | h
      · subst h; simp [isExec] at hx
      · exact attemptLoop_exec_args argv0 argv envv outcomes maxAttempts.toNat 0 o h hx
    | watchError e =>
      cases e with
      | none =>
        have : runLoop argv0 argv envv maxAttempts outcomes
            (LoopInput.watchError none :: rest)
            = runLoop argv0 argv envv maxAttempts outcomes rest := by
          simp [runLoop, must]
        rw [this] at ho
        exact ih ho
      | some e =>
        simp [runLoop, must, fatal] at ho
        subst ho
        simp [isExec] at hx
    | cancelled =>
      simp [runLoop] at ho

/-- C7 witness: in a run where the replacer succeeds on the first attempt,
the exec observation in the trace is exactly the exec of the given path
with the given argv and env. -/
theorem exec_receives_current_args_witness :
    Obs.execCall "p" ["p", "-v"] ["HOME=/root"] ∈
      (runLoop "p" ["p", "-v"] ["HOME=/root"] 1 (fun _ => ExecOutcome.success)
        [LoopInput.event]).1
    ∧ Obs.execCall "p" ["p", "-v"] ["HOME=/root"]
      = Obs.execCall "p" ["p", "-v"] ["HOME=/root"] :=
  ⟨by decide,
    exec_receives_current_args "p" ["p", "-v"] ["HOME=/root"] 1
      (fun _ => ExecOutcome.success) [LoopInput.event]
      (Obs.execCall "p" ["p", "-v"] ["HOME=/root"]) (by decide) (by decide)⟩

/-- C8: if cancellation is observed before any change notification — the
loop has, until then, seen at most nil values on the error channel — the
goroutine returns with an empty trace: no reload cycle starts, the hook is
never invoked and no exec is attempted, no matter how many change
notifications are delivered to the stream after the cancellation. -/
theorem cancel_before_any_event (argv0 : String) (argv envv : List String)
    (maxAttempts : Int) (outcomes : Nat → ExecOutcome) (pre rest : List LoopInput)
    (hpre : ∀ i ∈ pre, i = LoopInput.watchError none) :
    runLoop argv0 argv envv maxAttempts outcomes
        (pre ++ LoopInput.cancelled :: rest)
      = ([], LoopEnd.returned) := by
  induction pre with
  | nil => rfl
  | cons p pre ih =>
    have hp : p = LoopInput.watchError none := hpre p (by simp)
    subst hp
    rw [List.cons_append]
    have hstep : runLoop argv0 argv envv maxAttempts outcomes
        (LoopInput.watchError none :: (pre ++ LoopInput.cancelled :: rest))
        = runLoop argv0 argv envv maxAttempts outcomes
          (pre ++ LoopInput.cancelled :: rest) := by
      simp [runLoop, must]
    rw [hstep]
    exact ih fun i hi => hpre i (by simp [hi])

/-- C8 witness: cancellation arriving first (after one nil error-channel
value) makes the loop return with an empty trace even though two change
notifications are delivered afterwards. -/
theorem cancel_before_any_event_witness :
    runLoop "p" ["p"] ["E=1"] 5 (fun _ => ExecOutcome.etxtbsy)
        ([LoopInput.watchError none]
          ++ LoopInput.cancelled :: [LoopInput.event, LoopInput.event])
      = ([], LoopEnd.returned) :=
  cancel_before_any_event "p" ["p"] ["E=1"] 5 (fun _ => ExecOutcome.etxtbsy)
    [LoopInput.watchError none] [LoopInput.event, LoopInput.event] (by decide)

end Autoreload
